import Mathlib

/-!
# SkyDrive-X Desktop — transfer-queue engine, shallow embedding

A shallow embedding of the persistent transfer-queue engine of the
SkyDrive-X desktop client (Rust sources under `src/rust/src`), together
with theorems settling the frozen claims about it.

Conventions used throughout:

* Rust `u64` values are embedded as `Nat`, `i64` timestamps as `Int`.
* `std::time::Instant` is embedded as a `Nat` number of milliseconds;
  `Duration` comparisons become comparisons of millisecond counts.
* Effectful operations (SQLite writes, cancel-token registration, thread
  spawns, broadcast sends, back-off sleeps) are embedded as explicit
  fields in a result structure listing the effects the Rust code performs.
* Nondeterministic inputs (`Uuid::new_v4`, `current_timestamp`,
  `Instant::now`, network responses) are passed as explicit parameters.
-/

namespace SkyDriveX

/-! ## Data model (`src/rust/src/api/drive/models.rs`) -/

/-- `DownloadStatus` from models.rs. -/
inductive DownloadStatus where
| inProgress
| completed
| failed
deriving DecidableEq, Repr

/-- `UploadStatus` from models.rs. -/
inductive UploadStatus where
| inProgress
| completed
| failed
| cancelled
deriving DecidableEq, Repr

/-- `DriveItemSummary` from models.rs. -/
structure DriveItemSummary where
  id : String
  name : String
  size : Option Nat
  is_folder : Bool
  child_count : Option Int
  mime_type : Option String
  last_modified : Option String
  thumbnail_url : Option String
deriving DecidableEq, Repr

/-- `DownloadTask` from models.rs. -/
structure DownloadTask where
  item : DriveItemSummary
  status : DownloadStatus
  started_at : Int
  completed_at : Option Int
  saved_path : Option String
  size_label : Option Nat
  bytes_downloaded : Option Nat
  error_message : Option String
deriving DecidableEq, Repr

/-- `UploadTask` from models.rs. -/
structure UploadTask where
  task_id : String
  file_name : String
  local_path : String
  size : Option Nat
  mime_type : Option String
  parent_id : Option String
  remote_id : Option String
  status : UploadStatus
  started_at : Int
  completed_at : Option Int
  bytes_uploaded : Option Nat
  error_message : Option String
  session_url : Option String
deriving DecidableEq, Repr

/-- `InnerState` of `download_manager/core.rs` (also the shape of
`DownloadQueueState`, to which it converts field by field). -/
structure DlInnerState where
  active : List DownloadTask
  completed : List DownloadTask
  failed : List DownloadTask
deriving DecidableEq, Repr

/-- `InnerState` of `upload_manager/core.rs` (also the shape of
`UploadQueueState`). -/
structure UlInnerState where
  active : List UploadTask
  completed : List UploadTask
  failed : List UploadTask
deriving DecidableEq, Repr

/-- `DownloadProgressUpdate` from models.rs (`speed_bps : Option f64` is
carried abstractly; none of the claims depend on its float value, so it is
embedded as an `Option Unit` marker of whether a speed was attached). -/
structure DownloadProgressUpdate where
  item_id : String
  bytes_downloaded : Nat
  expected_size : Option Nat
  speed_attached : Bool
  timestamp_millis : Int
deriving DecidableEq, Repr

/-- `UploadProgressUpdate` from models.rs (same float abstraction). -/
structure UploadProgressUpdate where
  task_id : String
  bytes_uploaded : Nat
  expected_size : Option Nat
  speed_attached : Bool
  timestamp_millis : Int
deriving DecidableEq, Repr

/-! ## Status encoding (`download_manager/storage.rs`, `upload_manager/storage.rs`) -/

namespace DlStorage

/-- `status_to_i64` from download_manager/storage.rs. -/
def status_to_i64 : DownloadStatus → Int
| .inProgress => 0
| .completed => 1
| .failed => 2

/-- `status_from_i64` from download_manager/storage.rs: `1 => Completed,
2 => Failed, _ => InProgress`. -/
def status_from_i64 (value : Int) : DownloadStatus :=
if value = 1 then .completed
else if value = 2 then .failed
else .inProgress

end DlStorage

namespace UlStorage

/-- `status_to_i64` from upload_manager/storage.rs. -/
def status_to_i64 : UploadStatus → Int
| .inProgress => 0
| .completed => 1
| .failed => 2
| .cancelled => 3

/-- `status_from_i64` from upload_manager/storage.rs: `1 => Completed,
2 => Failed, 3 => Cancelled, _ => InProgress`. -/
def status_from_i64 (value : Int) : UploadStatus :=
if value = 1 then .completed
else if value = 2 then .failed
else if value = 3 then .cancelled
else .inProgress

end UlStorage

/-! ## The counted semaphore (`upload_manager/core.rs`, lines 786–833) -/

/-- `SemaphoreState` from upload_manager/core.rs: `available` permits out of
`max`. `Semaphore::new(max)` starts with `available = max`. -/
structure SemaphoreState where
  available : Nat
  max : Nat
deriving DecidableEq, Repr

namespace Semaphore

/-- `Semaphore::new(max)`. -/
def new (max : Nat) : SemaphoreState := ⟨max, max⟩

/-- `Semaphore::acquire`: the caller waits on the condition variable while
`available == 0`; the decrement happens only once `available > 0`. A `none`
result models "the caller is still blocked"; `some` gives the state after
the decrement. -/
def acquire (s : SemaphoreState) : Option SemaphoreState :=
if s.available = 0 then none
else some { s with available := s.available - 1 }

/-- `Semaphore::release`: increments `available` only when it is strictly
below `max` (a surplus release is a no-op on the count). -/
def release (s : SemaphoreState) : SemaphoreState :=
if s.available < s.max then { s with available := s.available + 1 } else s

/-- States of the semaphore reachable from `Semaphore::new max` by any
interleaving of acquires and releases. -/
inductive Reachable (max : Nat) : SemaphoreState → Prop where
| init : Reachable max (new max)
| acquire {s s' : SemaphoreState} : Reachable max s → acquire s = some s' →
    Reachable max s'
| release {s : SemaphoreState} : Reachable max s → Reachable max (release s)

end Semaphore

/-! ## Worker concurrency

In `upload_manager/core.rs` every spawned worker thread first runs
`let _permit = manager.concurrency_guard.acquire();` (lines 194, 279, 313)
and the permit is released when the worker exits (`Drop` for
`SemaphorePermit`). The semaphore is created as `Semaphore::new(2)`
(line 88). `inside` counts workers currently past `acquire` (that is,
inside or about to enter the adapter call, holding a permit).

In `download_manager/core.rs` the spawned worker thread (lines 144–162)
calls `download_drive_item_with_progress` directly: the download manager
has no semaphore and no other gate, so entering the adapter call requires
nothing. -/

/-- Upload-side worker/semaphore system state. -/
structure UlConcState where
  sem : SemaphoreState
  inside : Nat
deriving DecidableEq, Repr

/-- Steps of the upload worker pool: a worker completes
`concurrency_guard.acquire()` and proceeds into the adapter call, or a
worker inside exits, dropping its permit (`SemaphorePermit::drop` calls
`release`). -/
inductive UlConcStep : UlConcState → UlConcState → Prop where
| enter {s : UlConcState} {sem' : SemaphoreState} :
    Semaphore.acquire s.sem = some sem' →
    UlConcStep s ⟨sem', s.inside + 1⟩
| exitWorker {s : UlConcState} :
    0 < s.inside →
    UlConcStep s ⟨Semaphore.release s.sem, s.inside - 1⟩

/-- Reachable states of the upload worker pool from the initial manager
(`Semaphore::new(2)`, no worker inside the adapter). -/
inductive UlConcReachable : UlConcState → Prop where
| init : UlConcReachable ⟨Semaphore.new 2, 0⟩
| step {s s' : UlConcState} : UlConcReachable s → UlConcStep s s' →
    UlConcReachable s'

/-- Download-side worker system: `inside` counts download workers currently
inside the adapter call. `DownloadManager::enqueue` spawns the worker with
no permit acquisition, so any worker may enter at any time. -/
structure DlConcState where
  inside : Nat
deriving DecidableEq, Repr

/-- Steps of the download worker pool: an enqueued worker enters the
adapter call (no gate exists in the code), or a worker exits. -/
inductive DlConcStep : DlConcState → DlConcState → Prop where
| enter {s : DlConcState} : DlConcStep s ⟨s.inside + 1⟩
| exitWorker {s : DlConcState} : 0 < s.inside → DlConcStep s ⟨s.inside - 1⟩

/-- Reachable states of the download worker pool. -/
inductive DlConcReachable : DlConcState → Prop where
| init : DlConcReachable ⟨0⟩
| step {s s' : DlConcState} : DlConcReachable s → DlConcStep s s' →
    DlConcReachable s'

/-! ## Shared list helpers

`InnerState.active` is a `Vec`; the Rust code locates the first entry with
a matching id (`iter().position` / `iter_mut().find`) and mutates or
removes it. These helpers embed that access pattern. -/

/-- Update the first element satisfying `p` with `f`; also return the
updated element (mirrors `iter_mut().find` followed by a mutation). -/
def updateFirst (p : α → Bool) (f : α → α) : List α → List α × Option α
| [] => ([], none)
| x :: xs =>
  if p x then (f x :: xs, some (f x))
  else
    let r := updateFirst p f xs
    (x :: r.1, r.2)

/-- Remove the first element satisfying `p`; return it and the remaining
list (mirrors `iter().position` followed by `Vec::remove`). -/
def extractFirst (p : α → Bool) : List α → Option α × List α
| [] => (none, [])
| x :: xs =>
  if p x then (some x, xs)
  else
    let r := extractFirst p xs
    (r.1, x :: r.2)

/-- Rust `str::trim().is_empty()`, embedded over the character data
(`Char.isWhitespace` stands for Rust's whitespace classes; the claims only
use emptiness of the trimmed string). -/
def trim_is_empty (s : String) : Bool :=
  (((s.data.dropWhile Char.isWhitespace).reverse.dropWhile
    Char.isWhitespace).reverse).isEmpty

/-- Rust `Option<i64>` ordering (`None` sorts before `Some`), as used by
`sort_by_key(|t| Reverse(t.completed_at))`. -/
def optionIntLe : Option Int → Option Int → Bool
| none, _ => true
| some _, none => false
| some a, some b => a ≤ b

/-! ## Canonical messages and tuning constants -/

/-- `INTERRUPTED_DOWNLOAD_MESSAGE` (download_manager/core.rs line 26). -/
def INTERRUPTED_DOWNLOAD_MESSAGE : String := "应用已关闭或异常退出，下载被中断，请重新下载"

/-- `INTERRUPTED_UPLOAD_MESSAGE` (upload_manager/core.rs line 26). -/
def INTERRUPTED_UPLOAD_MESSAGE : String := "应用已关闭或异常退出，上传被中断，请重新上传"

/-- `CANCELLED_UPLOAD_MESSAGE` (upload_manager/core.rs line 27): the
error message stored on a cancelled upload task. -/
def CANCELLED_UPLOAD_MESSAGE : String := "上传已取消"

/-- `CANCELLED_ERR_FLAG` (upload_manager/core.rs line 28): the sentinel
error string a worker returns when the cancel flag was observed. -/
def CANCELLED_ERR_FLAG : String := "upload cancelled"

/-- `PROGRESS_CHANNEL_CAP` (upload_manager/core.rs line 30). -/
def PROGRESS_CHANNEL_CAP : Nat := 64

/-- `PERSIST_BYTES_THRESHOLD` (upload_manager/core.rs line 32). -/
def PERSIST_BYTES_THRESHOLD : Nat := 256 * 1024

/-- `PERSIST_INTERVAL` of one second (upload_manager/core.rs line 33),
in milliseconds. -/
def PERSIST_INTERVAL_MS : Nat := 1000

/-! ## Restart recovery (`restore_from_storage`) -/

namespace DownloadManager

/-- The mutation `restore_from_storage` applies to an `InProgress` row
(download_manager/core.rs lines 78–85): status becomes `Failed`,
`completed_at` is stamped, and the canonical interrupt message is set only
when no error message is present. -/
def interrupt_task (now : Int) (task : DownloadTask) : DownloadTask :=
{ task with
  status := .failed
  completed_at := some now
  error_message :=
    match task.error_message with
    | none => some INTERRUPTED_DOWNLOAD_MESSAGE
    | some m => some m }

/-- The partition loop of `restore_from_storage` (lines 76–90): buckets in
record order, plus the `upsert` writes issued for interrupted rows.
Download restore pushes nothing to `active`. -/
def restore_partition (now : Int) :
    List DownloadTask → List DownloadTask × List DownloadTask × List DownloadTask
| [] => ([], [], [])
| task :: rest =>
  let r := restore_partition now rest
  match task.status with
  | .inProgress => (r.1, interrupt_task now task :: r.2.1, interrupt_task now task :: r.2.2)
  | .completed => (task :: r.1, r.2.1, r.2.2)
  | .failed => (r.1, task :: r.2.1, r.2.2)

/-- Result of download `restore_from_storage`: the initial queue state
(the first observable state of the manager) and the store writes issued. -/
structure RestoreResult where
  state : DlInnerState
  store_writes : List DownloadTask
deriving Repr

/-- `DownloadManager::restore_from_storage` (lines 71–99): partition the
loaded rows, mark every `InProgress` row interrupted (persisting it back),
then sort `active` by `started_at` ascending and `completed`/`failed` by
`completed_at` descending with a stable sort. -/
def restore_from_storage (records : List DownloadTask) (now : Int) : RestoreResult :=
  let r := restore_partition now records
  { state :=
      { active := List.mergeSort ([] : List DownloadTask)
          (fun a b => decide (a.started_at ≤ b.started_at))
        completed := List.mergeSort r.1
          (fun a b => optionIntLe b.completed_at a.completed_at)
        failed := List.mergeSort r.2.1
          (fun a b => optionIntLe b.completed_at a.completed_at) }
    store_writes := r.2.2 }

end DownloadManager

namespace UploadManager

/-- Whether an `InProgress` upload row carries resumable state
(upload_manager/core.rs line 109: `session_url.is_some() && size.is_some()`). -/
def resumable (task : UploadTask) : Bool :=
  task.session_url.isSome && task.size.isSome

/-- The mutation applied to a non-resumable `InProgress` row
(upload_manager/core.rs lines 113–117). -/
def interrupt_task (now : Int) (task : UploadTask) : UploadTask :=
{ task with
  status := .failed
  completed_at := some now
  error_message :=
    match task.error_message with
    | none => some INTERRUPTED_UPLOAD_MESSAGE
    | some m => some m }

/-- The partition loop of upload `restore_from_storage` (lines 106–125):
returns (active, completed, failed, store writes, resume list) in record
order. Resumable `InProgress` rows go to `active` unchanged and onto the
resume list; other `InProgress` rows are interrupted and persisted. -/
def restore_partition (now : Int) :
    List UploadTask →
      List UploadTask × List UploadTask × List UploadTask × List UploadTask × List UploadTask
| [] => ([], [], [], [], [])
| task :: rest =>
  let r := restore_partition now rest
  match task.status with
  | .inProgress =>
    if resumable task then
      (task :: r.1, r.2.1, r.2.2.1, r.2.2.2.1, task :: r.2.2.2.2)
    else
      (r.1, r.2.1, interrupt_task now task :: r.2.2.1,
        interrupt_task now task :: r.2.2.2.1, r.2.2.2.2)
  | .completed => (r.1, task :: r.2.1, r.2.2.1, r.2.2.2.1, r.2.2.2.2)
  | .failed => (r.1, r.2.1, task :: r.2.2.1, r.2.2.2.1, r.2.2.2.2)
  | .cancelled => (r.1, r.2.1, task :: r.2.2.1, r.2.2.2.1, r.2.2.2.2)

/-- Result of upload `restore_from_storage`: the initial queue state, the
store writes, and the tasks whose workers are respawned
(`resume_large_upload` is called for each, which registers a cancel token
and spawns a worker thread; its `size`/`session_url` guard is already
satisfied by the resume list). -/
structure RestoreResult where
  state : UlInnerState
  store_writes : List UploadTask
  resumed : List UploadTask
deriving Repr

/-- `UploadManager::restore_from_storage` (upload_manager/core.rs lines
100–139). -/
def restore_from_storage (records : List UploadTask) (now : Int) : RestoreResult :=
  let r := restore_partition now records
  { state :=
      { active := List.mergeSort r.1
          (fun a b => decide (a.started_at ≤ b.started_at))
        completed := List.mergeSort r.2.1
          (fun a b => optionIntLe b.completed_at a.completed_at)
        failed := List.mergeSort r.2.2.1
          (fun a b => optionIntLe b.completed_at a.completed_at) }
    store_writes := r.2.2.2.1
    resumed := r.2.2.2.2 }

end UploadManager

/-! ## Enqueue (`DownloadManager::enqueue`, `UploadManager::enqueue_small_file`) -/

namespace DownloadManager

/-- Result of a call to `DownloadManager::enqueue`: the returned value,
the manager state after the call, and the effects performed (store
upserts, cancel tokens registered, worker threads spawned — a spawn
carries the item id, target directory and overwrite flag captured by the
thread). -/
structure EnqueueResult where
  ret : Except String DlInnerState
  state : DlInnerState
  store_upserts : List DownloadTask
  registered_tokens : List String
  spawned_workers : List (String × String × Bool)
deriving Repr

/-- `DownloadManager::enqueue` (download_manager/core.rs lines 102–165):
validate the trimmed item id and target directory, reject a duplicate
active item id, drop stale completed/failed entries with the same id,
append a fresh `InProgress` task, persist it, register a cancel flag,
spawn the worker and return the post-insert snapshot. -/
def enqueue (s : DlInnerState) (item : DriveItemSummary) (target_dir : String)
    (overwrite : Bool) (now : Int) : EnqueueResult :=
  if trim_is_empty item.id then
    ⟨.error "drive item id is required", s, [], [], []⟩
  else if trim_is_empty target_dir then
    ⟨.error "target directory is required", s, [], [], []⟩
  else if s.active.any (fun t => t.item.id == item.id) then
    ⟨.error "该文件已在下载队列中", s, [], [], []⟩
  else
    let task : DownloadTask :=
      { item := item
        status := .inProgress
        started_at := now
        completed_at := none
        saved_path := none
        size_label := item.size
        bytes_downloaded := some 0
        error_message := none }
    let newState : DlInnerState :=
      { active := s.active ++ [task]
        completed := s.completed.filter (fun t => t.item.id != item.id)
        failed := s.failed.filter (fun t => t.item.id != item.id) }
    ⟨.ok newState, newState, [task], [item.id], [(item.id, target_dir, overwrite)]⟩

end DownloadManager

namespace UploadManager

/-- Result of a call to `UploadManager::enqueue_small_file`. A spawned
worker carries the new task id. -/
structure EnqueueResult where
  ret : Except String UlInnerState
  state : UlInnerState
  store_upserts : List UploadTask
  registered_tokens : List String
  spawned_workers : List String
deriving Repr

/-- `UploadManager::enqueue_small_file` (upload_manager/core.rs lines
142–223): validate only the trimmed file name (the local path is not
validated), reject a duplicate active (file name, parent id) pair, drop
stale failed/completed entries with the same identity, append a fresh
`InProgress` task with `bytes_uploaded = 0` and `size = bytes.len()`,
persist it, register a cancel flag, spawn the worker and return the
post-insert snapshot. `task_id` stands for the freshly generated UUID. -/
def enqueue_small_file (s : UlInnerState) (parent_id : Option String)
    (file_name : String) (local_path : String) (bytes : List Nat)
    (task_id : String) (now : Int) : EnqueueResult :=
  if trim_is_empty file_name then
    ⟨.error "file name is required", s, [], [], []⟩
  else if s.active.any (fun t => t.file_name == file_name && t.parent_id == parent_id) then
    ⟨.error "同名文件已在上传队列中", s, [], [], []⟩
  else
    let task : UploadTask :=
      { task_id := task_id
        file_name := file_name
        local_path := local_path
        size := some bytes.length
        mime_type := none
        parent_id := parent_id
        remote_id := none
        status := .inProgress
        started_at := now
        completed_at := none
        bytes_uploaded := some 0
        error_message := none
        session_url := none }
    let newState : UlInnerState :=
      { active := s.active ++ [task]
        completed := s.completed.filter
          (fun t => t.file_name != file_name || t.parent_id != parent_id)
        failed := s.failed.filter
          (fun t => t.file_name != file_name || t.parent_id != parent_id) }
    ⟨.ok newState, newState, [task], [task_id], [task_id]⟩

end UploadManager

/-! ## Progress persistence throttle and progress callbacks -/

/-- `PersistMarker` from upload_manager/core.rs: bytes and instant of the
last store write for a task. -/
structure PersistMarker where
  bytes_uploaded : Nat
  instant : Nat
deriving DecidableEq, Repr

namespace UploadManager

/-- `UploadManager::should_persist_progress` (upload_manager/core.rs lines
693–716) over the `persist_markers` map (embedded as an association
list). A missing entry is inserted and the call returns `true`; otherwise
the call returns `true` — updating the marker — exactly when at least
`PERSIST_BYTES_THRESHOLD` bytes accumulated since the marker or at least
`PERSIST_INTERVAL` elapsed. `now` is the current instant in
milliseconds; `saturating_sub` and `Instant::duration_since` both
saturate at zero, as `Nat` subtraction does. -/
def should_persist_progress (markers : List (String × PersistMarker))
    (task_id : String) (bytes_uploaded : Nat) (now : Nat) :
    Bool × List (String × PersistMarker) :=
  match markers.lookup task_id with
  | none => (true, markers ++ [(task_id, ⟨bytes_uploaded, now⟩)])
  | some entry =>
    let delta_bytes := bytes_uploaded - entry.bytes_uploaded
    let elapsed := now - entry.instant
    if delta_bytes ≥ PERSIST_BYTES_THRESHOLD ∨ elapsed ≥ PERSIST_INTERVAL_MS then
      (true, markers.map (fun kv =>
        if kv.1 == task_id then (kv.1, ⟨bytes_uploaded, now⟩) else kv))
    else
      (false, markers)

/-- Result of upload `report_progress`: new queue state, new throttle
markers, store writes, and whether a progress update was broadcast. -/
structure ProgressResult where
  state : UlInnerState
  markers : List (String × PersistMarker)
  store_upserts : List UploadTask
  emits_update : Bool
deriving Repr

/-- `UploadManager::report_progress` (upload_manager/core.rs lines
551–574): update the first matching active task's `bytes_uploaded` (and
`size` when a total is supplied); if the task was found, persist it only
when `should_persist_progress` allows, and emit a progress snapshot. -/
def report_progress (s : UlInnerState) (markers : List (String × PersistMarker))
    (task_id : String) (bytes_uploaded : Nat) (total_size : Option Nat)
    (now : Nat) : ProgressResult :=
  let upd := updateFirst (fun t => t.task_id == task_id)
    (fun t =>
      { t with
        bytes_uploaded := some bytes_uploaded
        size := if total_size.isSome then total_size else t.size })
    s.active
  match upd.2 with
  | none => ⟨{ s with active := upd.1 }, markers, [], false⟩
  | some task =>
    let sp := should_persist_progress markers task_id bytes_uploaded now
    ⟨{ s with active := upd.1 }, sp.2, if sp.1 then [task] else [], true⟩

end UploadManager

namespace DownloadManager

/-- Result of download `report_progress`. -/
structure ProgressResult where
  state : DlInnerState
  store_upserts : List DownloadTask
  emits_update : Bool
deriving Repr

/-- `DownloadManager::report_progress` (download_manager/core.rs lines
309–331): update the first matching active task's `bytes_downloaded` (and
`size_label` when an expected size is supplied); if the task was found,
persist it — unconditionally, there is no throttle on the download side —
and emit a progress snapshot. -/
def report_progress (s : DlInnerState) (item_id : String)
    (bytes_downloaded : Nat) (expected_size : Option Nat) : ProgressResult :=
  let upd := updateFirst (fun t => t.item.id == item_id)
    (fun t =>
      { t with
        bytes_downloaded := some bytes_downloaded
        size_label := if expected_size.isSome then expected_size else t.size_label })
    s.active
  match upd.2 with
  | none => ⟨{ s with active := upd.1 }, [], false⟩
  | some task => ⟨{ s with active := upd.1 }, [task], true⟩

end DownloadManager

/-! ## Terminal transitions of the upload manager -/

namespace UploadManager

/-- Result of a terminal transition (`mark_success` / `mark_failure` /
`mark_cancelled`): state, throttle markers after
`clear_progress_meter`/`clear_persist_marker`, store writes, cancel
tokens removed, and whether a final progress snapshot was emitted. -/
structure MarkResult where
  state : UlInnerState
  markers : List (String × PersistMarker)
  store_upserts : List UploadTask
  cancel_tokens_removed : List String
  emits_update : Bool
deriving Repr

/-- `UploadManager::mark_success` (upload_manager/core.rs lines 406–431):
remove the first matching active task, stamp `Completed`, `completed_at`
and `remote_id`, clear `error_message`, insert at the head of
`completed`; then persist, clear the throttle marker, emit a final
snapshot and drop the cancel token. -/
def mark_success (s : UlInnerState) (markers : List (String × PersistMarker))
    (task_id : String) (remote_id : String) (now : Int) : MarkResult :=
  let ex := extractFirst (fun t => t.task_id == task_id) s.active
  match ex.1 with
  | none => ⟨{ s with active := ex.2 }, markers, [], [], false⟩
  | some t =>
    let task := { t with
      status := UploadStatus.completed
      completed_at := some now
      remote_id := some remote_id
      error_message := none }
    ⟨{ s with active := ex.2, completed := task :: s.completed },
      markers.filter (fun kv => kv.1 != task_id), [task], [task_id], true⟩

/-- `UploadManager::mark_failure` (upload_manager/core.rs lines 434–460):
like `mark_success` but with status `Failed`, the error message set, and
insertion at the head of `failed`; when the task is not active the failed
list is instead purged of the id and nothing is persisted. -/
def mark_failure (s : UlInnerState) (markers : List (String × PersistMarker))
    (task_id : String) (err : String) (now : Int) : MarkResult :=
  let ex := extractFirst (fun t => t.task_id == task_id) s.active
  match ex.1 with
  | none =>
    ⟨{ s with active := ex.2, failed := s.failed.filter (fun t => t.task_id != task_id) },
      markers, [], [], false⟩
  | some t =>
    let task := { t with
      status := UploadStatus.failed
      completed_at := some now
      error_message := some err }
    ⟨{ s with active := ex.2, failed := task :: s.failed },
      markers.filter (fun kv => kv.1 != task_id), [task], [task_id], true⟩

/-- `UploadManager::mark_cancelled` (upload_manager/core.rs lines
463–487): status `Cancelled`, `completed_at` stamped, `error_message`
set to `CANCELLED_UPLOAD_MESSAGE`, inserted at the head of `failed`. -/
def mark_cancelled (s : UlInnerState) (markers : List (String × PersistMarker))
    (task_id : String) (now : Int) : MarkResult :=
  let ex := extractFirst (fun t => t.task_id == task_id) s.active
  match ex.1 with
  | none => ⟨{ s with active := ex.2 }, markers, [], [], false⟩
  | some t =>
    let task := { t with
      status := UploadStatus.cancelled
      completed_at := some now
      error_message := some CANCELLED_UPLOAD_MESSAGE }
    ⟨{ s with active := ex.2, failed := task :: s.failed },
      markers.filter (fun kv => kv.1 != task_id), [task], [task_id], true⟩

/-- The dispatch every upload worker performs on its result
(upload_manager/core.rs lines 210–219, 289–298, 323–332): success marks
success; the sentinel `CANCELLED_ERR_FLAG` marks cancelled; any other
error marks failure. -/
def worker_dispatch (s : UlInnerState) (markers : List (String × PersistMarker))
    (task_id : String) (result : Except String String) (now : Int) : MarkResult :=
  match result with
  | .ok remote_id => mark_success s markers task_id remote_id now
  | .error err =>
    if err == CANCELLED_ERR_FLAG then mark_cancelled s markers task_id now
    else mark_failure s markers task_id err now

end UploadManager

/-! ## Progress broadcast bus -/

/-- A subscriber channel of the upload manager: the buffered updates of
the `sync_channel(PROGRESS_CHANNEL_CAP)` and whether the receiver is
still connected. -/
structure UlChannel where
  buf : List UploadProgressUpdate
  connected : Bool
deriving DecidableEq, Repr

/-- A subscriber channel of the download manager: an unbounded
`mpsc::channel()`. -/
structure DlChannel where
  buf : List DownloadProgressUpdate
  connected : Bool
deriving DecidableEq, Repr

namespace UploadManager

/-- `UploadManager::broadcast_update` (upload_manager/core.rs lines
744–751): `try_send` on every subscriber; a disconnected channel is
removed; a full channel (buffer at `PROGRESS_CHANNEL_CAP`) keeps the
subscriber but drops the new value; otherwise the value is enqueued. -/
def broadcast_update (update : UploadProgressUpdate) :
    List UlChannel → List UlChannel
| [] => []
| c :: rest =>
  if !c.connected then broadcast_update update rest
  else if c.buf.length ≥ PROGRESS_CHANNEL_CAP then
    c :: broadcast_update update rest
  else
    { c with buf := c.buf ++ [update] } :: broadcast_update update rest

/-- `UploadManager::subscribe_progress` (upload_manager/core.rs lines
723–742): create a bounded channel of capacity `PROGRESS_CHANNEL_CAP`,
register it, then `try_send` one snapshot per active task that has a byte
count. Returns the new subscriber list and the channel handed to the
subscriber. -/
def subscribe_progress (s : UlInnerState) (subs : List UlChannel)
    (now : Int) : List UlChannel × UlChannel :=
  let seeded := s.active.foldl
    (fun c t =>
      match t.bytes_uploaded with
      | some bytes =>
        if c.buf.length ≥ PROGRESS_CHANNEL_CAP then c
        else { c with buf := c.buf ++
          [{ task_id := t.task_id
             bytes_uploaded := bytes
             expected_size := t.size
             speed_attached := false
             timestamp_millis := now }] }
      | none => c)
    ({ buf := [], connected := true } : UlChannel)
  (subs ++ [seeded], seeded)

end UploadManager

namespace DownloadManager

/-- `DownloadManager::broadcast_update` (download_manager/core.rs lines
435–439): a blocking `send` on every subscriber of an unbounded channel;
it fails only when the receiver disconnected, in which case the
subscriber is removed — otherwise the value is always enqueued, with no
capacity bound. -/
def broadcast_update (update : DownloadProgressUpdate) :
    List DlChannel → List DlChannel
| [] => []
| c :: rest =>
  if !c.connected then broadcast_update update rest
  else { c with buf := c.buf ++ [update] } :: broadcast_update update rest

/-- `DownloadManager::subscribe_progress` (download_manager/core.rs lines
414–433): create an unbounded channel, register it, then send one
snapshot per active task that has a byte count. -/
def subscribe_progress (s : DlInnerState) (subs : List DlChannel)
    (now : Int) : List DlChannel × DlChannel :=
  let seeded := s.active.foldl
    (fun c t =>
      match t.bytes_downloaded with
      | some bytes =>
        { c with buf := c.buf ++
          [{ item_id := t.item.id
             bytes_downloaded := bytes
             expected_size := t.size_label
             speed_attached := false
             timestamp_millis := now }] }
      | none => c)
    ({ buf := [], connected := true } : DlChannel)
  (subs ++ [seeded], seeded)

end DownloadManager

/-! ## Chunked upload (`src/rust/src/api/drive/upload.rs`) -/

/-- `CHUNK_SIZE_BYTES` (upload.rs line 20). -/
def CHUNK_SIZE_BYTES : Nat := 10 * 1024 * 1024

/-- `CHUNK_ALIGNMENT` (upload.rs line 21). -/
def CHUNK_ALIGNMENT : Nat := 320 * 1024

/-- `MAX_RETRY` (upload.rs line 22). -/
def MAX_RETRY : Nat := 4

/-- `RETRY_BASE_DELAY_MS` (upload.rs line 23). -/
def RETRY_BASE_DELAY_MS : Nat := 400

/-- `parse_next_start` (upload.rs lines 388–394): take the first
advertised range, parse the digits before the first `-` (or the whole
string if there is no `-`). `String.toNat?` stands for `parse::<u64>`. -/
def parse_next_start (next_expected : Option (List String)) : Option Nat :=
  match next_expected with
  | none => none
  | some ranges =>
    match ranges.head? with
    | none => none
    | some raw =>
      if raw.contains '-' then (raw.takeWhile (fun c => c ≠ '-')).toNat?
      else raw.toNat?

/-- What the network returns for one attempt of `upload_chunk_with_retry`,
one constructor per branch of the match on the response (upload.rs lines
314–359). `http200` covers HTTP 200 and 201 with a parsed final item;
`http202` covers any other 2xx, carrying the parsed
`nextExpectedRanges`; `http416` carries the outcome of the follow-up
`get_upload_session_status` call (`none` when that query fails);
`httpOther` is any other non-success status; `network` is a transport
error. -/
inductive AttemptResponse where
| http200 (item_id : String)
| http202 (next_ranges : Option (List String))
| http401
| http404
| http409
| http412
| http416 (query : Option (Option (List String)))
| httpOther (code : Nat)
| network (msg : String)
deriving DecidableEq, Repr

/-- The responses `upload_chunk_with_retry` treats as transient (retried
with back-off): any non-success status outside {401, 404, 409, 412, 416}
and any transport error. -/
def AttemptResponse.isTransient : AttemptResponse → Bool
| .httpOther _ => true
| .network _ => true
| _ => false

/-- `UploadChunkResult` from upload.rs (the `expire_at` payload is unused
by the loop and omitted). -/
inductive UploadChunkResult where
| continueAt (next_offset : Nat)
| completed (item_id : String)
deriving DecidableEq, Repr

/-- `UploadChunkError` from upload.rs. -/
inductive UploadChunkError where
| cancelled
| sessionExpired
| rangeMismatch (next : Nat)
| fatal (msg : String)
deriving DecidableEq, Repr

/-- One run of `upload_chunk_with_retry`: the outcome, the back-off
sleeps performed in order (milliseconds), and the number of network
attempts made. -/
structure RetryRun where
  result : Except UploadChunkError UploadChunkResult
  sleeps_ms : List Nat
  attempts_used : Nat
deriving Repr

/-- The `while attempt <= MAX_RETRY` loop of `upload_chunk_with_retry`
(upload.rs lines 288–370). `oracle n` is the response to the `n`-th
attempt, `cancel n` the cancel-flag value read at its start. `fuel`
equals `MAX_RETRY + 1 - attempt` at every call, so the `0` case (loop
guard failed) is never taken from the top-level entry. On a transient
outcome the attempt counter is incremented; if it now exceeds
`MAX_RETRY` the loop breaks with a fatal error, otherwise the thread
sleeps `RETRY_BASE_DELAY_MS * 2 ^ attempt` ms and retries. -/
def upload_chunk_go (oracle : Nat → AttemptResponse) (cancel : Nat → Bool)
    (start end_ total : Nat) : Nat → Nat → String → RetryRun
| 0, _, last_err => ⟨.error (.fatal last_err), [], 0⟩
| fuel + 1, attempt, _ =>
  if cancel attempt then ⟨.error .cancelled, [], 0⟩
  else
    let content_range :=
      "bytes " ++ toString start ++ "-" ++ toString end_ ++ "/" ++ toString total
    match oracle attempt with
    | .http200 item_id => ⟨.ok (.completed item_id), [], 1⟩
    | .http202 ranges =>
      ⟨.ok (.continueAt ((parse_next_start ranges).getD (end_ + 1))), [], 1⟩
    | .http401 =>
      ⟨.error (.fatal "access token rejected by Graph API; please sign in again"), [], 1⟩
    | .http404 => ⟨.error .sessionExpired, [], 1⟩
    | .http409 =>
      ⟨.error (.fatal "upload conflict: target file changed, please retry"), [], 1⟩
    | .http412 =>
      ⟨.error (.fatal "precondition failed while uploading; retry later"), [], 1⟩
    | .http416 query =>
      match query with
      | some ranges => ⟨.error (.rangeMismatch ((parse_next_start ranges).getD start)), [], 1⟩
      | none => ⟨.error (.rangeMismatch start), [], 1⟩
    | .httpOther code =>
      let err := "graph returned HTTP " ++ toString code ++ " for chunk " ++ content_range
      if attempt + 1 > MAX_RETRY then ⟨.error (.fatal err), [], 1⟩
      else
        let rest := upload_chunk_go oracle cancel start end_ total fuel (attempt + 1) err
        ⟨rest.result, RETRY_BASE_DELAY_MS * 2 ^ (attempt + 1) :: rest.sleeps_ms,
          rest.attempts_used + 1⟩
    | .network msg =>
      let err := "network error on upload chunk: " ++ msg
      if attempt + 1 > MAX_RETRY then ⟨.error (.fatal err), [], 1⟩
      else
        let rest := upload_chunk_go oracle cancel start end_ total fuel (attempt + 1) err
        ⟨rest.result, RETRY_BASE_DELAY_MS * 2 ^ (attempt + 1) :: rest.sleeps_ms,
          rest.attempts_used + 1⟩

/-- `upload_chunk_with_retry` (upload.rs lines 288–370), entered with
`attempt = 0` and the empty `last_err`. -/
def upload_chunk_with_retry (oracle : Nat → AttemptResponse)
    (cancel : Nat → Bool) (start end_ total : Nat) : RetryRun :=
  upload_chunk_go oracle cancel start end_ total (MAX_RETRY + 1) 0 ""

/-- Outcome of one iteration of the `upload_large_file_with_hooks` loop
body: either the loop returns (with the worker's result and whether
`cancel_upload_session` was invoked) or it advances to a new offset
(`seeked` records the `RangeMismatch` re-seek of the file cursor). -/
inductive LoopOutcome where
| finished (res : Except String String) (cancel_session_called : Bool)
| advance (new_offset : Nat) (seeked : Bool)
deriving Repr

/-- One iteration of the chunk loop of `upload_large_file_with_hooks`
(upload.rs lines 209–277): a set cancel flag at the loop head invokes
`cancel_upload_session` and returns the `CANCELLED_ERR_FLAG` error;
otherwise the chunk outcome decides: `Continue` advances,
`Completed` finishes successfully, `RangeMismatch` re-seeks to the
server-reported offset and continues, `SessionExpired` and `Fatal` fail,
and a `Cancelled` chunk also invokes `cancel_upload_session`. -/
def upload_loop_step (cancel_set : Bool)
    (chunk : Except UploadChunkError UploadChunkResult) : LoopOutcome :=
  if cancel_set then .finished (.error CANCELLED_ERR_FLAG) true
  else
    match chunk with
    | .ok (.continueAt next_offset) => .advance next_offset false
    | .ok (.completed item_id) => .finished (.ok item_id) false
    | .error (.rangeMismatch next_start) => .advance next_start true
    | .error .sessionExpired =>
      .finished (.error "upload session expired; please retry") false
    | .error .cancelled => .finished (.error CANCELLED_ERR_FLAG) true
    | .error (.fatal msg) => .finished (.error msg) false

/-! ## Concrete sample data for witnesses and counterexamples -/

/-- A concrete drive item. -/
def sampleItem (id : String) : DriveItemSummary :=
{ id := id
  name := "file.bin"
  size := some 1000
  is_folder := false
  child_count := none
  mime_type := none
  last_modified := none
  thumbnail_url := none }

/-- A concrete active download task for item id `id`. -/
def sampleDlTask (id : String) : DownloadTask :=
{ item := sampleItem id
  status := .inProgress
  started_at := 1
  completed_at := none
  saved_path := none
  size_label := some 1000
  bytes_downloaded := some 0
  error_message := none }

/-- A concrete active upload task. -/
def sampleUlTask (tid : String) : UploadTask :=
{ task_id := tid
  file_name := "a.txt"
  local_path := "/tmp/a.txt"
  size := some 100
  mime_type := none
  parent_id := none
  remote_id := none
  status := .inProgress
  started_at := 1
  completed_at := none
  bytes_uploaded := some 0
  error_message := none
  session_url := none }

/-- A persisted `InProgress` upload row without a session but with a
pre-existing error message — the input refuting the canonical-message
half of the restart-recovery claim. -/
def ulRowWithMessage : UploadTask :=
{ sampleUlTask "t9" with error_message := some "boom" }

/-- A concrete progress update. -/
def sampleUlUpdate : UploadProgressUpdate :=
{ task_id := "t1"
  bytes_uploaded := 10
  expected_size := some 100
  speed_attached := false
  timestamp_millis := 0 }

/-- A concrete download progress update. -/
def sampleDlUpdate : DownloadProgressUpdate :=
{ item_id := "a"
  bytes_downloaded := 10
  expected_size := some 1000
  speed_attached := false
  timestamp_millis := 0 }

/-! ## Helper lemmas -/

/-- Any state the semaphore reaches keeps its configured `max` and at most
`max` available permits. -/
theorem Semaphore.reachable_inv {max : Nat} {s : SemaphoreState}
    (h : Semaphore.Reachable max s) : s.max = max ∧ s.available ≤ max := by
  induction h with
  | init => exact ⟨rfl, Nat.le_refl _⟩
  | @acquire s s' _ hstep ih =>
    simp only [Semaphore.acquire] at hstep
    by_cases h0 : s.available = 0
    · simp [h0] at hstep
    · simp [h0] at hstep
      subst hstep
      exact ⟨ih.1, Nat.le_trans (Nat.sub_le _ _) ih.2⟩
  | @release s _ ih =>
    simp only [Semaphore.release]
    by_cases hlt : s.available < s.max
    · simp only [hlt, if_true]
      refine ⟨ih.1, ?_⟩
      have := ih.1
      omega
    · simp only [hlt, if_false]
      exact ih

/-- The upload worker pool keeps `inside + available = 2` (each worker in
the adapter call holds exactly one of the two permits). -/
theorem ulConc_inv {s : UlConcState} (h : UlConcReachable s) :
    s.sem.max = 2 ∧ s.inside + s.sem.available = 2 := by
  induction h with
  | init => exact ⟨rfl, rfl⟩
  | @step s s' _ hstep ih =>
    cases hstep with
    | @enter sem' hacq =>
      simp only [Semaphore.acquire] at hacq
      by_cases h0 : s.sem.available = 0
      · simp [h0] at hacq
      · simp [h0] at hacq
        subst hacq
        refine ⟨ih.1, ?_⟩
        have h1 := ih.2
        show s.inside + 1 + (s.sem.available - 1) = 2
        omega
    | exitWorker hpos =>
      have hmax := ih.1
      have hsum := ih.2
      have hlt : s.sem.available < s.sem.max := by omega
      refine ⟨?_, ?_⟩
      · show (Semaphore.release s.sem).max = 2
        simp only [Semaphore.release, hlt, if_true]
        exact hmax
      · show s.inside - 1 + (Semaphore.release s.sem).available = 2
        simp only [Semaphore.release, hlt, if_true]
        show s.inside - 1 + (s.sem.available + 1) = 2
        omega

/-- Every worker count is reachable for the download pool: nothing gates
entry into the adapter call. -/
theorem dlConc_all (n : Nat) : DlConcReachable ⟨n⟩ := by
  induction n with
  | zero => exact .init
  | succ k ih => exact .step ih .enter

/-- `updateFirst` finds an element when some element satisfies `p`. -/
theorem updateFirst_of_any {α : Type _} {p : α → Bool} {f : α → α} :
    ∀ {l : List α}, l.any p = true →
      ∃ x, (updateFirst p f l).2 = some (f x) ∧ p x = true := by
  intro l h
  induction l with
  | nil => simp at h
  | cons a as ih =>
    by_cases ha : p a
    · exact ⟨a, by simp [updateFirst, ha], ha⟩
    · simp only [List.any_cons, ha, Bool.false_or] at h
      obtain ⟨x, hx, hpx⟩ := ih h
      exact ⟨x, by simp [updateFirst, ha, hx], hpx⟩

/-- `extractFirst` extracts an element when some element satisfies `p`,
shortening the list by one. -/
theorem extractFirst_of_any {α : Type _} {p : α → Bool} :
    ∀ {l : List α}, l.any p = true →
      ∃ x, (extractFirst p l).1 = some x ∧ p x = true ∧
        ((extractFirst p l).2).length + 1 = l.length := by
  intro l h
  induction l with
  | nil => simp at h
  | cons a as ih =>
    by_cases ha : p a
    · exact ⟨a, by simp [extractFirst, ha], ha, by simp [extractFirst, ha]⟩
    · simp only [List.any_cons, ha, Bool.false_or] at h
      obtain ⟨x, hx, hpx, hlen⟩ := ih h
      refine ⟨x, by simp [extractFirst, ha, hx], hpx, ?_⟩
      have h2 : (extractFirst p (a :: as)).2 = a :: (extractFirst p as).2 := by
        simp [extractFirst, ha]
      rw [h2]
      simp only [List.length_cons]
      omega

/-- Looking up a key in an association list from which it was filtered out
yields nothing. -/
theorem lookup_filter_ne {β : Type _} (l : List (String × β)) (k : String) :
    (l.filter (fun kv => kv.1 != k)).lookup k = none := by
  induction l with
  | nil => rfl
  | cons a as ih =>
    obtain ⟨k', v⟩ := a
    by_cases h : k' = k
    · simp [List.filter_cons, h, ih]
    · have hne : (k' != k) = true := by simp [bne_iff_ne, h]
      simp only [List.filter_cons, hne, if_true, List.lookup]
      have hkk : (k == k') = false := by
        simp [beq_iff_eq]
        exact fun hk => h hk.symm
      simp [hkk, ih]

/-- Download restore partition: every `InProgress` row lands, interrupted,
in both the failed bucket and the list of store writes. -/
theorem DownloadManager.restore_partition_mem (now : Int) {r : DownloadTask} :
    ∀ {records : List DownloadTask}, r ∈ records → r.status = .inProgress →
      DownloadManager.interrupt_task now r ∈
          (DownloadManager.restore_partition now records).2.1 ∧
        DownloadManager.interrupt_task now r ∈
          (DownloadManager.restore_partition now records).2.2 := by
  intro records hmem hst
  induction records with
  | nil => simp at hmem
  | cons a as ih =>
    rcases List.mem_cons.mp hmem with rfl | hmem'
    · simp only [DownloadManager.restore_partition]
      rw [hst]
      simp
    · have h' := ih hmem'
      simp only [DownloadManager.restore_partition]
      cases ha : a.status <;> simp [h'.1, h'.2]

/-- Download restore partition never drops a record: the completed and
failed buckets together have as many entries as the input. -/
theorem DownloadManager.dl_restore_partition_length (now : Int) :
    ∀ (records : List DownloadTask),
      (DownloadManager.restore_partition now records).1.length +
        (DownloadManager.restore_partition now records).2.1.length =
        records.length := by
  intro records
  induction records with
  | nil => rfl
  | cons a as ih =>
    simp only [DownloadManager.restore_partition]
    cases ha : a.status <;> simp only [List.length_cons] <;> omega

/-- Upload restore partition: a non-resumable `InProgress` row lands,
interrupted, in the failed bucket and the write list. -/
theorem UploadManager.restore_partition_mem_interrupted (now : Int) {u : UploadTask} :
    ∀ {records : List UploadTask}, u ∈ records → u.status = .inProgress →
      UploadManager.resumable u = false →
      UploadManager.interrupt_task now u ∈
          (UploadManager.restore_partition now records).2.2.1 ∧
        UploadManager.interrupt_task now u ∈
          (UploadManager.restore_partition now records).2.2.2.1 := by
  intro records hmem hst hres
  induction records with
  | nil => simp at hmem
  | cons a as ih =>
    rcases List.mem_cons.mp hmem with rfl | hmem'
    · simp only [UploadManager.restore_partition]
      rw [hst]
      simp [hres]
    · have h' := ih hmem'
      simp only [UploadManager.restore_partition]
      cases ha : a.status <;> simp [h'.1, h'.2] <;>
        by_cases hra : UploadManager.resumable a <;> simp [hra, h'.1, h'.2]

/-- Upload restore partition: a resumable `InProgress` row stays in the
active bucket unchanged and is put on the resume list. -/
theorem UploadManager.restore_partition_mem_resumable (now : Int) {u : UploadTask} :
    ∀ {records : List UploadTask}, u ∈ records → u.status = .inProgress →
      UploadManager.resumable u = true →
      u ∈ (UploadManager.restore_partition now records).1 ∧
        u ∈ (UploadManager.restore_partition now records).2.2.2.2 := by
  intro records hmem hst hres
  induction records with
  | nil => simp at hmem
  | cons a as ih =>
    rcases List.mem_cons.mp hmem with rfl | hmem'
    · simp only [UploadManager.restore_partition]
      rw [hst]
      simp [hres]
    · have h' := ih hmem'
      simp only [UploadManager.restore_partition]
      cases ha : a.status <;> simp [h'.1, h'.2] <;>
        by_cases hra : UploadManager.resumable a <;> simp [hra, h'.1, h'.2]

/-- Upload restore partition: everything in the active bucket is a
resumable `InProgress` row. -/
theorem UploadManager.restore_partition_active {now : Int} :
    ∀ {records : List UploadTask} {t : UploadTask},
      t ∈ (UploadManager.restore_partition now records).1 →
      UploadManager.resumable t = true ∧ t.status = .inProgress := by
  intro records
  induction records with
  | nil => intro t ht; simp [UploadManager.restore_partition] at ht
  | cons a as ih =>
    intro t ht
    simp only [UploadManager.restore_partition] at ht
    cases ha : a.status <;> rw [ha] at ht
    case inProgress =>
      by_cases hra : UploadManager.resumable a
      · simp only [hra, if_true] at ht
        rcases List.mem_cons.mp ht with rfl | ht'
        · exact ⟨hra, ha⟩
        · exact ih ht'
      · simp only [hra, Bool.false_eq_true, if_false] at ht
        exact ih ht
    case completed => exact ih ht
    case failed => exact ih ht
    case cancelled => exact ih ht

/-- Upload restore partition never drops a record. -/
theorem UploadManager.ul_restore_partition_length (now : Int) :
    ∀ (records : List UploadTask),
      (UploadManager.restore_partition now records).1.length +
        (UploadManager.restore_partition now records).2.1.length +
        (UploadManager.restore_partition now records).2.2.1.length =
        records.length := by
  intro records
  induction records with
  | nil => rfl
  | cons a as ih =>
    simp only [UploadManager.restore_partition]
    cases ha : a.status
    case inProgress =>
      by_cases hra : UploadManager.resumable a <;>
        simp only [hra, Bool.false_eq_true, if_true, if_false, List.length_cons] <;> omega
    all_goals simp only [List.length_cons] <;> omega

/-! ## C9 — semaphore invariant -/

/-- C9: the upload manager's counted semaphore keeps `available ≤ max` in
every reachable state; `acquire` blocks (yields no state) exactly while
`available = 0` and otherwise decrements `available`, and `release`
increments `available` only when it is strictly below `max`, leaving a
saturated semaphore unchanged — so a surplus release can never push the
permit count past the configured maximum. -/
theorem semaphore_invariant (max : Nat) (s : SemaphoreState)
    (h : Semaphore.Reachable max s) :
    s.available ≤ s.max ∧ s.max = max ∧
    (s.available = 0 → Semaphore.acquire s = none) ∧
    (s.available ≠ 0 →
      Semaphore.acquire s = some { s with available := s.available - 1 }) ∧
    (s.available < s.max → (Semaphore.release s).available = s.available + 1) ∧
    (¬ s.available < s.max → Semaphore.release s = s) := by
  obtain ⟨h1, h2⟩ := Semaphore.reachable_inv h
  refine ⟨by omega, h1, ?_, ?_, ?_, ?_⟩
  · intro h0; simp [Semaphore.acquire, h0]
  · intro h0; simp [Semaphore.acquire, h0]
  · intro h0; simp [Semaphore.release, h0]
  · intro h0; simp [Semaphore.release, h0]

/-- Witness for C9 at the freshly created two-permit upload semaphore. -/
theorem semaphore_invariant_witness :
    (Semaphore.new 2).available ≤ (Semaphore.new 2).max :=
  (semaphore_invariant 2 (Semaphore.new 2) Semaphore.Reachable.init).1

/-! ## C1 — adapter-call concurrency bound -/

/-- C1 counterexample: the download manager spawns its workers with no
semaphore (no permit is acquired anywhere on the download path), so a
state with five download workers simultaneously inside the adapter call
is reachable, exceeding the claimed default bound of four. -/
theorem download_concurrency_exceeds_claimed_bound :
    DlConcReachable ⟨5⟩ ∧ ¬ (5 ≤ 4) :=
  ⟨dlConc_all 5, by decide⟩

/-- C1 (amended): every upload worker acquires a permit of the two-permit
semaphore before invoking the adapter and releases it on exit, so in any
reachable state at most 2 upload workers are inside the adapter call
(`inside + available = 2` exactly); the download manager acquires no
permits, so every download worker count is reachable. -/
theorem upload_concurrency_bounded (s : UlConcState) (h : UlConcReachable s) :
    s.inside ≤ 2 ∧ s.inside + s.sem.available = 2 ∧
      (∀ n : Nat, DlConcReachable ⟨n⟩) := by
  obtain ⟨-, hsum⟩ := ulConc_inv h
  exact ⟨by omega, hsum, dlConc_all⟩

/-- Witness for the amended C1 at the initial upload manager state. -/
theorem upload_concurrency_bounded_witness :
    (⟨Semaphore.new 2, 0⟩ : UlConcState).inside ≤ 2 :=
  (upload_concurrency_bounded _ UlConcReachable.init).1

/-! ## C2 — restart recovery -/

/-- C2 counterexample: a persisted `InProgress` upload row without a
session but with a pre-existing error message is transitioned to `Failed`
with that message preserved — not with the canonical interrupt message the
claim requires for every such record. -/
theorem restore_keeps_preexisting_error_message :
    ulRowWithMessage.status = .inProgress ∧ ulRowWithMessage.session_url = none ∧
    (UploadManager.restore_from_storage [ulRowWithMessage] 5).state.failed.map
        (fun t => t.error_message) = [some "boom"] ∧
    some "boom" ≠ some INTERRUPTED_UPLOAD_MESSAGE := by
  refine ⟨rfl, rfl, ?_, by decide⟩
  simp [UploadManager.restore_from_storage, UploadManager.restore_partition,
    UploadManager.resumable, UploadManager.interrupt_task, ulRowWithMessage,
    sampleUlTask]

/-- C2 (amended): at manager construction, every persisted `InProgress`
record lacking resumable state (uploads: a session url together with a
known size; downloads: always) is transitioned to `Failed` with
`completed_at` stamped and the canonical interrupt message when the record
carries no error message (a pre-existing message is preserved), persisted
back, and placed in the failed sequence of the initial observable state;
an `InProgress` upload record with both session url and size stays active
unchanged and its worker is respawned — and only resumable `InProgress`
records stay active. -/
theorem restore_interrupts_nonresumable
    (dl_records : List DownloadTask) (ul_records : List UploadTask) (now : Int)
    (r : DownloadTask) (u : UploadTask)
    (hr : r ∈ dl_records) (hrs : r.status = .inProgress)
    (hu : u ∈ ul_records) (hus : u.status = .inProgress) :
    (DownloadManager.interrupt_task now r ∈
        (DownloadManager.restore_from_storage dl_records now).state.failed ∧
      DownloadManager.interrupt_task now r ∈
        (DownloadManager.restore_from_storage dl_records now).store_writes ∧
      (DownloadManager.interrupt_task now r).status = .failed ∧
      (DownloadManager.interrupt_task now r).completed_at = some now ∧
      (DownloadManager.interrupt_task now r).error_message =
        some (r.error_message.getD INTERRUPTED_DOWNLOAD_MESSAGE) ∧
      (DownloadManager.restore_from_storage dl_records now).state.active = []) ∧
    (UploadManager.resumable u = false →
      UploadManager.interrupt_task now u ∈
          (UploadManager.restore_from_storage ul_records now).state.failed ∧
        UploadManager.interrupt_task now u ∈
          (UploadManager.restore_from_storage ul_records now).store_writes ∧
        (UploadManager.interrupt_task now u).status = .failed ∧
        (UploadManager.interrupt_task now u).completed_at = some now ∧
        (UploadManager.interrupt_task now u).error_message =
          some (u.error_message.getD INTERRUPTED_UPLOAD_MESSAGE)) ∧
    (UploadManager.resumable u = true →
      u ∈ (UploadManager.restore_from_storage ul_records now).state.active ∧
        u ∈ (UploadManager.restore_from_storage ul_records now).resumed) ∧
    (∀ t ∈ (UploadManager.restore_from_storage ul_records now).state.active,
      UploadManager.resumable t = true ∧ t.status = .inProgress) := by
  obtain ⟨hm1, hm2⟩ := DownloadManager.restore_partition_mem now hr hrs
  refine ⟨⟨?_, ?_, rfl, rfl, ?_, ?_⟩, ?_, ?_, ?_⟩
  · simp only [DownloadManager.restore_from_storage, List.mem_mergeSort]
    exact hm1
  · simpa only [DownloadManager.restore_from_storage] using hm2
  · show (match r.error_message with
      | none => some INTERRUPTED_DOWNLOAD_MESSAGE
      | some m => some m) = _
    cases r.error_message <;> rfl
  · simp [DownloadManager.restore_from_storage]
  · intro hres
    obtain ⟨hu1, hu2⟩ :=
      UploadManager.restore_partition_mem_interrupted now hu hus hres
    refine ⟨?_, ?_, rfl, rfl, ?_⟩
    · simp only [UploadManager.restore_from_storage, List.mem_mergeSort]
      exact hu1
    · simpa only [UploadManager.restore_from_storage] using hu2
    · show (match u.error_message with
        | none => some INTERRUPTED_UPLOAD_MESSAGE
        | some m => some m) = _
      cases u.error_message <;> rfl
  · intro hres
    obtain ⟨hu1, hu2⟩ :=
      UploadManager.restore_partition_mem_resumable now hu hus hres
    constructor
    · simp only [UploadManager.restore_from_storage, List.mem_mergeSort]
      exact hu1
    · simpa only [UploadManager.restore_from_storage] using hu2
  · intro t ht
    simp only [UploadManager.restore_from_storage, List.mem_mergeSort] at ht
    exact UploadManager.restore_partition_active ht

/-- Witness for the amended C2: one interrupted download row and one
non-resumable upload row, both restored at time 7. -/
theorem restore_interrupts_nonresumable_witness :
    DownloadManager.interrupt_task 7 (sampleDlTask "a") ∈
      (DownloadManager.restore_from_storage [sampleDlTask "a"] 7).state.failed :=
  (restore_interrupts_nonresumable [sampleDlTask "a"] [sampleUlTask "t1"] 7
    (sampleDlTask "a") (sampleUlTask "t1")
    (List.mem_singleton.mpr rfl) rfl (List.mem_singleton.mpr rfl) rfl).1.1

/-! ## C10 — total status decoding -/

/-- C10: decoding a stored status integer is total with `InProgress` as the
catch-all (download: any value other than 1 and 2; upload: any value other
than 1, 2 and 3 — in particular any corrupted code), and restart recovery
drops no record: the restored sequences together contain exactly as many
entries as were loaded, so an `InProgress`-decoded row re-enters the
interrupted-recovery path instead of disappearing. -/
theorem status_decode_catch_all (v : Int)
    (dl_records : List DownloadTask) (ul_records : List UploadTask) (now : Int)
    (h1 : v ≠ 1) (h2 : v ≠ 2) :
    DlStorage.status_from_i64 v = .inProgress ∧
    (v ≠ 3 → UlStorage.status_from_i64 v = .inProgress) ∧
    (DownloadManager.restore_from_storage dl_records now).state.active.length +
        (DownloadManager.restore_from_storage dl_records now).state.completed.length +
        (DownloadManager.restore_from_storage dl_records now).state.failed.length =
      dl_records.length ∧
    (UploadManager.restore_from_storage ul_records now).state.active.length +
        (UploadManager.restore_from_storage ul_records now).state.completed.length +
        (UploadManager.restore_from_storage ul_records now).state.failed.length =
      ul_records.length := by
  refine ⟨?_, ?_, ?_, ?_⟩
  · simp [DlStorage.status_from_i64, h1, h2]
  · intro h3
    simp [UlStorage.status_from_i64, h1, h2, h3]
  · simp only [DownloadManager.restore_from_storage, List.length_mergeSort,
      List.mergeSort_nil, List.length_nil]
    have := DownloadManager.dl_restore_partition_length now dl_records
    omega
  · simp only [UploadManager.restore_from_storage, List.length_mergeSort]
    have := UploadManager.ul_restore_partition_length now ul_records
    omega

/-- Witness for C10 at the corrupted status code 99. -/
theorem status_decode_catch_all_witness :
    DlStorage.status_from_i64 99 = .inProgress :=
  (status_decode_catch_all 99 [] [] 0 (by decide) (by decide)).1

/-! ## C3 — enqueue: dedup, insert, persist, register, spawn, snapshot -/

/-- C3: with valid inputs, an enqueue against an active duplicate (same
item id for downloads, same file name and parent for uploads) returns the
duplicate-active error with the state untouched and no effects; otherwise
it removes stale completed/failed entries with the same identity, appends
a fresh `InProgress` task with zero bytes transferred, persists it,
registers a cancel flag, spawns a worker, and returns the post-insert
snapshot containing the new task. -/
theorem enqueue_dedup_insert
    (sdl : DlInnerState) (item : DriveItemSummary) (dir : String) (ov : Bool)
    (sul : UlInnerState) (parent : Option String) (fname lpath : String)
    (bytes : List Nat) (tid : String) (now : Int)
    (hid : trim_is_empty item.id = false) (hdir : trim_is_empty dir = false)
    (hfn : trim_is_empty fname = false) :
    (sdl.active.any (fun t => t.item.id == item.id) = true →
      DownloadManager.enqueue sdl item dir ov now =
        ⟨.error "该文件已在下载队列中", sdl, [], [], []⟩) ∧
    (sdl.active.any (fun t => t.item.id == item.id) = false →
      ∃ task : DownloadTask,
        task.item = item ∧ task.status = .inProgress ∧
        task.bytes_downloaded = some 0 ∧ task.started_at = now ∧
        task.completed_at = none ∧ task.error_message = none ∧
        DownloadManager.enqueue sdl item dir ov now =
          ⟨.ok ⟨sdl.active ++ [task],
              sdl.completed.filter (fun t => t.item.id != item.id),
              sdl.failed.filter (fun t => t.item.id != item.id)⟩,
            ⟨sdl.active ++ [task],
              sdl.completed.filter (fun t => t.item.id != item.id),
              sdl.failed.filter (fun t => t.item.id != item.id)⟩,
            [task], [item.id], [(item.id, dir, ov)]⟩ ∧
        task ∈ (DownloadManager.enqueue sdl item dir ov now).state.active) ∧
    (sul.active.any (fun t => t.file_name == fname && t.parent_id == parent) = true →
      UploadManager.enqueue_small_file sul parent fname lpath bytes tid now =
        ⟨.error "同名文件已在上传队列中", sul, [], [], []⟩) ∧
    (sul.active.any (fun t => t.file_name == fname && t.parent_id == parent) = false →
      ∃ task : UploadTask,
        task.task_id = tid ∧ task.file_name = fname ∧ task.parent_id = parent ∧
        task.status = .inProgress ∧ task.bytes_uploaded = some 0 ∧
        task.size = some bytes.length ∧ task.started_at = now ∧
        task.completed_at = none ∧ task.error_message = none ∧
        UploadManager.enqueue_small_file sul parent fname lpath bytes tid now =
          ⟨.ok ⟨sul.active ++ [task],
              sul.completed.filter (fun t => t.file_name != fname || t.parent_id != parent),
              sul.failed.filter (fun t => t.file_name != fname || t.parent_id != parent)⟩,
            ⟨sul.active ++ [task],
              sul.completed.filter (fun t => t.file_name != fname || t.parent_id != parent),
              sul.failed.filter (fun t => t.file_name != fname || t.parent_id != parent)⟩,
            [task], [tid], [tid]⟩ ∧
        task ∈ (UploadManager.enqueue_small_file sul parent fname lpath bytes tid now).state.active) := by
  refine ⟨?_, ?_, ?_, ?_⟩
  · intro h
    simp [DownloadManager.enqueue, hid, hdir, h]
  · intro h
    refine ⟨{ item := item
              status := .inProgress
              started_at := now
              completed_at := none
              saved_path := none
              size_label := item.size
              bytes_downloaded := some 0
              error_message := none },
      rfl, rfl, rfl, rfl, rfl, rfl, ?_, ?_⟩
    · simp [DownloadManager.enqueue, hid, hdir, h]
    · simp [DownloadManager.enqueue, hid, hdir, h]
  · intro h
    simp [UploadManager.enqueue_small_file, hfn, h]
  · intro h
    refine ⟨{ task_id := tid
              file_name := fname
              local_path := lpath
              size := some bytes.length
              mime_type := none
              parent_id := parent
              remote_id := none
              status := .inProgress
              started_at := now
              completed_at := none
              bytes_uploaded := some 0
              error_message := none
              session_url := none },
      rfl, rfl, rfl, rfl, rfl, rfl, rfl, rfl, rfl, ?_, ?_⟩
    · simp [UploadManager.enqueue_small_file, hfn, h]
    · simp [UploadManager.enqueue_small_file, hfn, h]

/-- Witness for C3: a duplicate-active download enqueue against a queue
already holding item "a" is rejected with the state unchanged. -/
theorem enqueue_dedup_insert_witness :
    DownloadManager.enqueue ⟨[sampleDlTask "a"], [], []⟩ (sampleItem "a") "/tmp" false 3 =
      ⟨.error "该文件已在下载队列中", ⟨[sampleDlTask "a"], [], []⟩, [], [], []⟩ :=
  (enqueue_dedup_insert ⟨[sampleDlTask "a"], [], []⟩ (sampleItem "a") "/tmp" false
    ⟨[], [], []⟩ none "a.txt" "/p" [0] "t1" 3
    (by decide) (by decide) (by decide)).1 (by decide)

/-! ## C8 — input validation on enqueue -/

/-- C8 counterexample: `enqueue_small_file` accepts a trimmed-empty local
path — the task is inserted into the active sequence and persisted with
`local_path = ""`, instead of being rejected with a validation error. -/
theorem upload_enqueue_accepts_empty_local_path :
    trim_is_empty "" = true ∧
    (UploadManager.enqueue_small_file ⟨[], [], []⟩ none "a.txt" "" [0, 1] "t1" 0).ret =
      .ok (UploadManager.enqueue_small_file ⟨[], [], []⟩ none "a.txt" "" [0, 1] "t1" 0).state ∧
    (UploadManager.enqueue_small_file ⟨[], [], []⟩ none "a.txt" "" [0, 1] "t1" 0).state.active.map
        (fun t => t.local_path) = [""] ∧
    (UploadManager.enqueue_small_file ⟨[], [], []⟩ none "a.txt" "" [0, 1] "t1" 0).store_upserts.length = 1 :=
  ⟨rfl, rfl, rfl, rfl⟩

/-- C8 (amended): the download enqueue rejects a trimmed-empty item id
and, when the id passes, a trimmed-empty target directory; the upload
enqueue rejects a trimmed-empty file name — each with a validation error
and with no state mutation and no effects. The upload local path is not
validated. -/
theorem enqueue_validation
    (sdl : DlInnerState) (item : DriveItemSummary) (dir : String) (ov : Bool) (now : Int)
    (sul : UlInnerState) (parent : Option String) (fname lpath : String)
    (bytes : List Nat) (tid : String) :
    (trim_is_empty item.id = true →
      DownloadManager.enqueue sdl item dir ov now =
        ⟨.error "drive item id is required", sdl, [], [], []⟩) ∧
    (trim_is_empty item.id = false → trim_is_empty dir = true →
      DownloadManager.enqueue sdl item dir ov now =
        ⟨.error "target directory is required", sdl, [], [], []⟩) ∧
    (trim_is_empty fname = true →
      UploadManager.enqueue_small_file sul parent fname lpath bytes tid now =
        ⟨.error "file name is required", sul, [], [], []⟩) := by
  refine ⟨?_, ?_, ?_⟩
  · intro h
    simp [DownloadManager.enqueue, h]
  · intro h1 h2
    simp [DownloadManager.enqueue, h1, h2]
  · intro h
    simp [UploadManager.enqueue_small_file, h]

/-- Witness for the amended C8: an empty item id is rejected. -/
theorem enqueue_validation_witness :
    DownloadManager.enqueue ⟨[], [], []⟩ (sampleItem "") "/tmp" false 0 =
      ⟨.error "drive item id is required", ⟨[], [], []⟩, [], [], []⟩ :=
  (enqueue_validation ⟨[], [], []⟩ (sampleItem "") "/tmp" false 0
    ⟨[], [], []⟩ none "a.txt" "/p" [] "t1").1 (by decide)

/-! ## C4 — persistence throttle -/

/-- When a matching active task exists, upload `report_progress` writes
the store exactly when `should_persist_progress` allows. -/
theorem UploadManager.report_progress_upserts
    (s : UlInnerState) (markers : List (String × PersistMarker))
    (tid : String) (bytes : Nat) (total : Option Nat) (now : Nat)
    (hua : s.active.any (fun t => t.task_id == tid) = true) :
    (UploadManager.report_progress s markers tid bytes total now).store_upserts ≠ [] ↔
      (UploadManager.should_persist_progress markers tid bytes now).1 = true := by
  obtain ⟨x, hx, -⟩ := updateFirst_of_any (p := fun t : UploadTask => t.task_id == tid)
    (f := fun t =>
      { t with
        bytes_uploaded := some bytes
        size := if total.isSome then total else t.size }) hua
  simp only [UploadManager.report_progress]
  rw [hx]
  by_cases hp : (UploadManager.should_persist_progress markers tid bytes now).1 = true
  · simp [hp]
  · simp [hp]

/-- With a marker present, `should_persist_progress` answers `true`
exactly when 256 KiB accumulated or one second elapsed. -/
theorem UploadManager.should_persist_iff
    (markers : List (String × PersistMarker)) (tid : String) (bytes now : Nat)
    (m : PersistMarker) (hm : markers.lookup tid = some m) :
    (UploadManager.should_persist_progress markers tid bytes now).1 = true ↔
      (bytes - m.bytes_uploaded ≥ PERSIST_BYTES_THRESHOLD ∨
        now - m.instant ≥ PERSIST_INTERVAL_MS) := by
  simp only [UploadManager.should_persist_progress]
  rw [hm]
  by_cases h : (bytes - m.bytes_uploaded ≥ PERSIST_BYTES_THRESHOLD ∨
      now - m.instant ≥ PERSIST_INTERVAL_MS)
  · simp [h]
  · simp [h]

/-- `mark_success` on an active task persists it and clears its throttle
marker. -/
theorem UploadManager.mark_success_persists
    (s : UlInnerState) (markers : List (String × PersistMarker))
    (tid remote : String) (now : Int)
    (hua : s.active.any (fun t => t.task_id == tid) = true) :
    (UploadManager.mark_success s markers tid remote now).store_upserts.length = 1 ∧
      (UploadManager.mark_success s markers tid remote now).markers.lookup tid = none := by
  obtain ⟨x, hx, -, -⟩ := extractFirst_of_any (p := fun t : UploadTask => t.task_id == tid) hua
  simp only [UploadManager.mark_success]
  rw [hx]
  exact ⟨rfl, lookup_filter_ne markers tid⟩

/-- `mark_failure` on an active task persists it and clears its throttle
marker. -/
theorem UploadManager.mark_failure_persists
    (s : UlInnerState) (markers : List (String × PersistMarker))
    (tid err : String) (now : Int)
    (hua : s.active.any (fun t => t.task_id == tid) = true) :
    (UploadManager.mark_failure s markers tid err now).store_upserts.length = 1 ∧
      (UploadManager.mark_failure s markers tid err now).markers.lookup tid = none := by
  obtain ⟨x, hx, -, -⟩ := extractFirst_of_any (p := fun t : UploadTask => t.task_id == tid) hua
  simp only [UploadManager.mark_failure]
  rw [hx]
  exact ⟨rfl, lookup_filter_ne markers tid⟩

/-- `mark_cancelled` on an active task persists it and clears its throttle
marker. -/
theorem UploadManager.mark_cancelled_persists
    (s : UlInnerState) (markers : List (String × PersistMarker))
    (tid : String) (now : Int)
    (hua : s.active.any (fun t => t.task_id == tid) = true) :
    (UploadManager.mark_cancelled s markers tid now).store_upserts.length = 1 ∧
      (UploadManager.mark_cancelled s markers tid now).markers.lookup tid = none := by
  obtain ⟨x, hx, -, -⟩ := extractFirst_of_any (p := fun t : UploadTask => t.task_id == tid) hua
  simp only [UploadManager.mark_cancelled]
  rw [hx]
  exact ⟨rfl, lookup_filter_ne markers tid⟩

/-- C4 counterexample: the download manager persists every in-flight
progress tick — two consecutive callbacks one byte apart are both written
to the store (download `report_progress` has neither a byte threshold nor
a clock), contradicting the claimed 256 KiB / 1 s throttle for both
managers. -/
theorem download_progress_persists_every_tick :
    (DownloadManager.report_progress ⟨[sampleDlTask "a"], [], []⟩ "a" 1 none).store_upserts.length = 1 ∧
    (DownloadManager.report_progress
        (DownloadManager.report_progress ⟨[sampleDlTask "a"], [], []⟩ "a" 1 none).state
        "a" 2 none).store_upserts.length = 1 ∧
    2 - 1 < PERSIST_BYTES_THRESHOLD :=
  ⟨rfl, rfl, by decide⟩

/-- C4 (amended): in the upload manager an in-flight progress callback
persists the record exactly when at least 256 KiB accumulated since the
task's throttle marker or at least one second elapsed (a task with no
marker yet persists and installs one); upload terminal transitions always
persist and clear the per-task throttle state; the download manager has no
throttle and persists every in-flight progress tick. -/
theorem progress_persistence_throttle
    (s : UlInnerState) (markers : List (String × PersistMarker))
    (tid : String) (bytes : Nat) (total : Option Nat) (now : Nat)
    (m : PersistMarker) (remote err : String) (nowi : Int)
    (sdl : DlInnerState) (iid : String) (dbytes : Nat) (dexp : Option Nat)
    (hm : markers.lookup tid = some m)
    (hua : s.active.any (fun t => t.task_id == tid) = true)
    (hda : sdl.active.any (fun t => t.item.id == iid) = true) :
    ((UploadManager.report_progress s markers tid bytes total now).store_upserts ≠ [] ↔
      (bytes - m.bytes_uploaded ≥ PERSIST_BYTES_THRESHOLD ∨
        now - m.instant ≥ PERSIST_INTERVAL_MS)) ∧
    (∀ markers' : List (String × PersistMarker), markers'.lookup tid = none →
      (UploadManager.should_persist_progress markers' tid bytes now).1 = true) ∧
    ((UploadManager.mark_success s markers tid remote nowi).store_upserts.length = 1 ∧
      (UploadManager.mark_success s markers tid remote nowi).markers.lookup tid = none) ∧
    ((UploadManager.mark_failure s markers tid err nowi).store_upserts.length = 1 ∧
      (UploadManager.mark_failure s markers tid err nowi).markers.lookup tid = none) ∧
    ((UploadManager.mark_cancelled s markers tid nowi).store_upserts.length = 1 ∧
      (UploadManager.mark_cancelled s markers tid nowi).markers.lookup tid = none) ∧
    (DownloadManager.report_progress sdl iid dbytes dexp).store_upserts.length = 1 := by
  refine ⟨?_, ?_, ?_, ?_, ?_, ?_⟩
  · rw [UploadManager.report_progress_upserts s markers tid bytes total now hua,
      UploadManager.should_persist_iff markers tid bytes now m hm]
  · intro markers' hnone
    simp only [UploadManager.should_persist_progress]
    rw [hnone]
  · exact UploadManager.mark_success_persists s markers tid remote nowi hua
  · exact UploadManager.mark_failure_persists s markers tid err nowi hua
  · exact UploadManager.mark_cancelled_persists s markers tid nowi hua
  · obtain ⟨x, hx, -⟩ := updateFirst_of_any (p := fun t : DownloadTask => t.item.id == iid)
      (f := fun t =>
        { t with
          bytes_downloaded := some dbytes
          size_label := if dexp.isSome then dexp else t.size_label }) hda
    simp only [DownloadManager.report_progress]
    rw [hx]
    rfl

/-- Witness for the amended C4: an upload tick of one byte at the same
instant as the marker is not persisted. -/
theorem progress_persistence_throttle_witness :
    (UploadManager.report_progress ⟨[sampleUlTask "t1"], [], []⟩ [("t1", ⟨0, 0⟩)]
        "t1" 1 none 0).store_upserts ≠ [] ↔
      (1 - (0 : Nat) ≥ PERSIST_BYTES_THRESHOLD ∨ (0 : Nat) - 0 ≥ PERSIST_INTERVAL_MS) :=
  (progress_persistence_throttle ⟨[sampleUlTask "t1"], [], []⟩ [("t1", ⟨0, 0⟩)]
    "t1" 1 none 0 ⟨0, 0⟩ "r" "e" 5 ⟨[sampleDlTask "a"], [], []⟩ "a" 1 none
    (by decide) (by decide) (by decide)).1

/-! ## C5 — progress broadcast bus -/

/-- Upload broadcast keeps every in-bound buffer within
`PROGRESS_CHANNEL_CAP`. -/
theorem UploadManager.broadcast_update_bound (u : UploadProgressUpdate) :
    ∀ (subs : List UlChannel),
      (∀ ch ∈ subs, ch.buf.length ≤ PROGRESS_CHANNEL_CAP) →
      ∀ ch ∈ UploadManager.broadcast_update u subs,
        ch.buf.length ≤ PROGRESS_CHANNEL_CAP := by
  intro subs
  induction subs with
  | nil => intro _ ch hch; simp [UploadManager.broadcast_update] at hch
  | cons c rest ih =>
    intro hall ch hch
    have hc := hall c (List.mem_cons_self c rest)
    have hrest := fun x hx => hall x (List.mem_cons_of_mem c hx)
    by_cases hconn : c.connected
    · by_cases hfull : c.buf.length ≥ PROGRESS_CHANNEL_CAP
      · simp only [UploadManager.broadcast_update, hconn, hfull] at hch
        simp only [Bool.not_true, Bool.false_eq_true, if_false, if_true] at hch
        rcases List.mem_cons.mp hch with rfl | hch'
        · exact hc
        · exact ih hrest ch hch'
      · simp only [UploadManager.broadcast_update, hconn, hfull] at hch
        simp only [Bool.not_true, Bool.false_eq_true, if_false] at hch
        rcases List.mem_cons.mp hch with rfl | hch'
        · simp only [List.length_append, List.length_singleton]
          omega
        · exact ih hrest ch hch'
    · simp only [UploadManager.broadcast_update, hconn] at hch
      simp only [Bool.not_false, if_true] at hch
      exact ih hrest ch hch

/-- The channel handed to a new upload subscriber is seeded within the
capacity bound. -/
theorem UploadManager.subscribe_seed_bound (s : UlInnerState)
    (subs : List UlChannel) (now : Int) :
    (UploadManager.subscribe_progress s subs now).2.buf.length ≤
      PROGRESS_CHANNEL_CAP := by
  simp only [UploadManager.subscribe_progress]
  have main : ∀ (tasks : List UploadTask) (c : UlChannel),
      c.buf.length ≤ PROGRESS_CHANNEL_CAP →
      (tasks.foldl
        (fun c t =>
          match t.bytes_uploaded with
          | some bytes =>
            if c.buf.length ≥ PROGRESS_CHANNEL_CAP then c
            else { c with buf := c.buf ++
              [{ task_id := t.task_id
                 bytes_uploaded := bytes
                 expected_size := t.size
                 speed_attached := false
                 timestamp_millis := now }] }
          | none => c) c).buf.length ≤ PROGRESS_CHANNEL_CAP := by
    intro tasks
    induction tasks with
    | nil => intro c hc; exact hc
    | cons t ts ih =>
      intro c hc
      simp only [List.foldl_cons]
      apply ih
      cases hbu : t.bytes_uploaded with
      | none => simpa [hbu] using hc
      | some bytes =>
        by_cases hfull : c.buf.length ≥ PROGRESS_CHANNEL_CAP
        · simpa [hbu, hfull] using hc
        · simp only [hbu, hfull, if_false]
          simp only [List.length_append, List.length_singleton]
          omega
  exact main s.active { buf := [], connected := true } (by simp)

/-- C5 counterexample: a download subscriber's channel is unbounded — a
broadcast onto a connected channel already holding 64 buffered updates
enqueues a 65th instead of dropping the new value. -/
theorem download_channel_unbounded :
    DownloadManager.broadcast_update sampleDlUpdate
        [⟨List.replicate PROGRESS_CHANNEL_CAP sampleDlUpdate, true⟩] =
      [⟨List.replicate PROGRESS_CHANNEL_CAP sampleDlUpdate ++ [sampleDlUpdate], true⟩] ∧
    (List.replicate PROGRESS_CHANNEL_CAP sampleDlUpdate ++ [sampleDlUpdate]).length =
      PROGRESS_CHANNEL_CAP + 1 := by
  refine ⟨rfl, by simp⟩

/-- C5 (amended): an upload subscriber receives a bounded channel of
capacity 64: on each tick the bus try-sends on every registered channel,
a full channel keeps the subscriber and drops the new value, a
disconnected channel is removed, buffers within the bound stay within it,
and the seeding on subscription respects the bound; a download subscriber
instead receives an unbounded channel — a send onto a connected channel
always enqueues, and only disconnected channels are removed. -/
theorem broadcast_bus_behavior
    (u : UploadProgressUpdate) (subs : List UlChannel) (c : UlChannel)
    (du : DownloadProgressUpdate) (dsubs : List DlChannel) (d : DlChannel)
    (s : UlInnerState) (now : Int) :
    (c.connected = false →
      UploadManager.broadcast_update u (c :: subs) =
        UploadManager.broadcast_update u subs) ∧
    (c.connected = true → c.buf.length ≥ PROGRESS_CHANNEL_CAP →
      UploadManager.broadcast_update u (c :: subs) =
        c :: UploadManager.broadcast_update u subs) ∧
    (c.connected = true → c.buf.length < PROGRESS_CHANNEL_CAP →
      UploadManager.broadcast_update u (c :: subs) =
        { c with buf := c.buf ++ [u] } :: UploadManager.broadcast_update u subs) ∧
    ((∀ ch ∈ subs, ch.buf.length ≤ PROGRESS_CHANNEL_CAP) →
      ∀ ch ∈ UploadManager.broadcast_update u subs,
        ch.buf.length ≤ PROGRESS_CHANNEL_CAP) ∧
    ((UploadManager.subscribe_progress s subs now).1 =
      subs ++ [(UploadManager.subscribe_progress s subs now).2]) ∧
    ((UploadManager.subscribe_progress s subs now).2.buf.length ≤
      PROGRESS_CHANNEL_CAP) ∧
    (d.connected = false →
      DownloadManager.broadcast_update du (d :: dsubs) =
        DownloadManager.broadcast_update du dsubs) ∧
    (d.connected = true →
      DownloadManager.broadcast_update du (d :: dsubs) =
        { d with buf := d.buf ++ [du] } :: DownloadManager.broadcast_update du dsubs) := by
  refine ⟨?_, ?_, ?_, ?_, rfl, ?_, ?_, ?_⟩
  · intro h
    simp [UploadManager.broadcast_update, h]
  · intro h1 h2
    simp [UploadManager.broadcast_update, h1, h2]
  · intro h1 h2
    have h2' : ¬ c.buf.length ≥ PROGRESS_CHANNEL_CAP := by omega
    simp [UploadManager.broadcast_update, h1, h2']
  · exact UploadManager.broadcast_update_bound u subs
  · exact UploadManager.subscribe_seed_bound s subs now
  · intro h
    simp [DownloadManager.broadcast_update, h]
  · intro h
    simp [DownloadManager.broadcast_update, h]

/-- Witness for the amended C5: a full upload channel keeps the
subscriber and drops the new value. -/
theorem broadcast_bus_behavior_witness :
    UploadManager.broadcast_update sampleUlUpdate
        [⟨List.replicate PROGRESS_CHANNEL_CAP sampleUlUpdate, true⟩] =
      (⟨List.replicate PROGRESS_CHANNEL_CAP sampleUlUpdate, true⟩ : UlChannel) ::
        UploadManager.broadcast_update sampleUlUpdate [] :=
  (broadcast_bus_behavior sampleUlUpdate []
    ⟨List.replicate PROGRESS_CHANNEL_CAP sampleUlUpdate, true⟩
    sampleDlUpdate [] ⟨[], true⟩ ⟨[], [], []⟩ 0).2.1 rfl (by simp)

/-! ## C6 — upload cancellation -/

/-- C6 counterexample: on observing the cancel flag the worker finishes
with the `"upload cancelled"` sentinel and `cancel_session` is invoked,
and the manager records status `Cancelled` — but the stored
`error_message` is the canonical cancelled message "上传已取消", not the
string `"upload cancelled"` the claim states. -/
theorem cancelled_error_message_mismatch :
    upload_loop_step true (.ok (.continueAt 0)) =
      .finished (.error CANCELLED_ERR_FLAG) true ∧
    (UploadManager.worker_dispatch ⟨[sampleUlTask "t1"], [], []⟩ [] "t1"
        (.error CANCELLED_ERR_FLAG) 9).state.failed.map (fun t => t.error_message) =
      [some CANCELLED_UPLOAD_MESSAGE] ∧
    CANCELLED_UPLOAD_MESSAGE ≠ "upload cancelled" := by
  refine ⟨rfl, rfl, by decide⟩

/-- C6 (amended): when an upload worker observes the cancellation flag at
a chunk boundary it invokes `cancel_session` on the adapter and finishes
with the `"upload cancelled"` sentinel error; the manager then moves the
task out of the active sequence to status `Cancelled` with `completed_at`
stamped and `error_message` equal to the canonical cancelled message
"上传已取消" (the sentinel is only the worker-internal error value),
inserts it at the head of the failed sequence and persists it. -/
theorem upload_cancellation_path
    (s : UlInnerState) (markers : List (String × PersistMarker))
    (tid : String) (now : Int) (chunk : Except UploadChunkError UploadChunkResult)
    (hua : s.active.any (fun t => t.task_id == tid) = true) :
    upload_loop_step true chunk = .finished (.error CANCELLED_ERR_FLAG) true ∧
    ∃ task : UploadTask,
      (UploadManager.worker_dispatch s markers tid (.error CANCELLED_ERR_FLAG)
          now).state.failed = task :: s.failed ∧
      task.status = .cancelled ∧
      task.error_message = some CANCELLED_UPLOAD_MESSAGE ∧
      task.completed_at = some now ∧
      task.task_id = tid ∧
      (UploadManager.worker_dispatch s markers tid (.error CANCELLED_ERR_FLAG)
          now).state.active.length + 1 = s.active.length ∧
      (UploadManager.worker_dispatch s markers tid (.error CANCELLED_ERR_FLAG)
          now).store_upserts = [task] := by
  refine ⟨rfl, ?_⟩
  obtain ⟨x, hx, hpx, hlen⟩ :=
    extractFirst_of_any (p := fun t : UploadTask => t.task_id == tid) hua
  have hdisp : UploadManager.worker_dispatch s markers tid
      (.error CANCELLED_ERR_FLAG) now = UploadManager.mark_cancelled s markers tid now := by
    simp [UploadManager.worker_dispatch]
  rw [hdisp]
  refine ⟨{ x with
      status := UploadStatus.cancelled
      completed_at := some now
      error_message := some CANCELLED_UPLOAD_MESSAGE }, ?_, rfl, rfl, rfl, ?_, ?_, ?_⟩
  · simp only [UploadManager.mark_cancelled]
    rw [hx]
  · exact beq_iff_eq.mp hpx
  · simp only [UploadManager.mark_cancelled]
    rw [hx]
    simpa using hlen
  · simp only [UploadManager.mark_cancelled]
    rw [hx]

/-- Witness for the amended C6: the cancel flag set at the loop head
cancels the session and returns the sentinel. -/
theorem upload_cancellation_path_witness :
    upload_loop_step true (.error UploadChunkError.sessionExpired) =
      .finished (.error CANCELLED_ERR_FLAG) true :=
  (upload_cancellation_path ⟨[sampleUlTask "t1"], [], []⟩ [] "t1" 9
    (.error UploadChunkError.sessionExpired) (by decide)).1

/-! ## C7 — chunk retry loop -/

/-- In the retry loop the performed back-off sleeps always form a prefix
of the schedule `RETRY_BASE_DELAY_MS * 2 ^ k` for
`k = attempt + 1, …, MAX_RETRY`. -/
theorem upload_chunk_go_sleeps (oracle : Nat → AttemptResponse)
    (cancel : Nat → Bool) (start end_ total : Nat) :
    ∀ (fuel attempt : Nat) (last_err : String),
      (upload_chunk_go oracle cancel start end_ total fuel attempt
          last_err).sleeps_ms <+:
        (List.range' (attempt + 1) (MAX_RETRY - attempt)).map
          (fun i => RETRY_BASE_DELAY_MS * 2 ^ i) := by
  intro fuel
  induction fuel with
  | zero =>
    intro attempt last_err
    simp [upload_chunk_go]
  | succ f ih =>
    intro attempt last_err
    simp only [upload_chunk_go]
    by_cases hc : cancel attempt
    · simp [hc]
    · simp only [hc, Bool.false_eq_true, if_false]
      cases ho : oracle attempt
      · simp
      · simp
      · simp
      · simp
      · simp
      · simp
      · next q => cases q <;> simp
      · next code =>
        by_cases hgt : attempt + 1 > MAX_RETRY
        · simp [hgt]
        · simp only [hgt, if_false]
          have hrange : MAX_RETRY - attempt = (MAX_RETRY - (attempt + 1)) + 1 := by
            omega
          rw [hrange, List.range'_succ]
          simp only [List.map_cons]
          exact List.cons_prefix_cons.mpr ⟨rfl, ih (attempt + 1) _⟩
      · next msg =>
        by_cases hgt : attempt + 1 > MAX_RETRY
        · simp [hgt]
        · simp only [hgt, if_false]
          have hrange : MAX_RETRY - attempt = (MAX_RETRY - (attempt + 1)) + 1 := by
            omega
          rw [hrange, List.range'_succ]
          simp only [List.map_cons]
          exact List.cons_prefix_cons.mpr ⟨rfl, ih (attempt + 1) _⟩

/-- When the cancel flag stays clear and every response is transient, the
retry loop performs the full back-off schedule, makes one network attempt
per iteration and returns a fatal error once the attempts are
exhausted. -/
theorem upload_chunk_go_transient (oracle : Nat → AttemptResponse)
    (cancel : Nat → Bool) (start end_ total : Nat)
    (htr : ∀ n, (oracle n).isTransient = true) (hc : ∀ n, cancel n = false) :
    ∀ (fuel attempt : Nat) (last_err : String),
      fuel + attempt = MAX_RETRY + 1 →
      (∃ msg, (upload_chunk_go oracle cancel start end_ total fuel attempt
          last_err).result = .error (.fatal msg)) ∧
      (upload_chunk_go oracle cancel start end_ total fuel attempt
          last_err).sleeps_ms =
        (List.range' (attempt + 1) (MAX_RETRY - attempt)).map
          (fun i => RETRY_BASE_DELAY_MS * 2 ^ i) ∧
      (upload_chunk_go oracle cancel start end_ total fuel attempt
          last_err).attempts_used = fuel := by
  intro fuel
  induction fuel with
  | zero =>
    intro attempt last_err hfa
    have h0 : MAX_RETRY - attempt = 0 := by omega
    refine ⟨⟨last_err, rfl⟩, ?_, rfl⟩
    simp [upload_chunk_go, h0]
  | succ f ih =>
    intro attempt last_err hfa
    have htr' := htr attempt
    simp only [upload_chunk_go, hc attempt, Bool.false_eq_true, if_false]
    cases ho : oracle attempt <;> rw [ho] at htr' <;>
      simp [AttemptResponse.isTransient] at htr'
    · next code =>
      dsimp only []
      by_cases hgt : attempt + 1 > MAX_RETRY
      · have hf0 : f = 0 := by omega
        have h0 : MAX_RETRY - attempt = 0 := by omega
        rw [if_pos hgt, h0, hf0]
        exact ⟨⟨_, rfl⟩, by simp, rfl⟩
      · obtain ⟨⟨msg, hmsg⟩, hsleep, hatt⟩ := ih (attempt + 1) _ (by omega)
        have hrange : MAX_RETRY - attempt = (MAX_RETRY - (attempt + 1)) + 1 := by
          omega
        rw [if_neg hgt]
        refine ⟨⟨msg, hmsg⟩, ?_, ?_⟩
        · rw [hrange, List.range'_succ]
          simp only [List.map_cons]
          exact congrArg _ hsleep
        · simp [hatt]
    · next msg =>
      dsimp only []
      by_cases hgt : attempt + 1 > MAX_RETRY
      · have hf0 : f = 0 := by omega
        have h0 : MAX_RETRY - attempt = 0 := by omega
        rw [if_pos hgt, h0, hf0]
        exact ⟨⟨_, rfl⟩, by simp, rfl⟩
      · obtain ⟨⟨m2, hmsg⟩, hsleep, hatt⟩ := ih (attempt + 1) _ (by omega)
        have hrange : MAX_RETRY - attempt = (MAX_RETRY - (attempt + 1)) + 1 := by
          omega
        rw [if_neg hgt]
        refine ⟨⟨m2, hmsg⟩, ?_, ?_⟩
        · rw [hrange, List.range'_succ]
          simp only [List.map_cons]
          exact congrArg _ hsleep
        · simp [hatt]

/-- C7: a network error or retryable HTTP status is retried with
exponential back-off `400 ms * 2 ^ attempt` (the sleeps of any run are a
prefix of [800, 1600, 3200, 6400]; with only transient responses all four
back-offs are slept and the fifth and final attempt yields a terminal
fatal failure); a `RangeMismatch` (HTTP 416) answer on the first attempt
instead returns immediately, with no sleep, carrying the server-reported
offset to which the loop re-seeks; a `SessionExpired` (HTTP 404) answer
fails immediately without retry. -/
theorem chunk_retry_behavior (oracle : Nat → AttemptResponse)
    (cancel : Nat → Bool) (start end_ total n : Nat)
    (ranges : Option (List String)) (hc : ∀ k, cancel k = false) :
    ((upload_chunk_with_retry oracle cancel start end_ total).sleeps_ms <+:
      [800, 1600, 3200, 6400]) ∧
    ((∀ k, (oracle k).isTransient = true) →
      (∃ msg, (upload_chunk_with_retry oracle cancel start end_ total).result =
        .error (.fatal msg)) ∧
      (upload_chunk_with_retry oracle cancel start end_ total).sleeps_ms =
        [800, 1600, 3200, 6400] ∧
      (upload_chunk_with_retry oracle cancel start end_ total).attempts_used =
        MAX_RETRY + 1) ∧
    (oracle 0 = .http416 (some ranges) →
      upload_chunk_with_retry oracle cancel start end_ total =
        ⟨.error (.rangeMismatch ((parse_next_start ranges).getD start)), [], 1⟩) ∧
    (oracle 0 = .http404 →
      upload_chunk_with_retry oracle cancel start end_ total =
        ⟨.error .sessionExpired, [], 1⟩) ∧
    upload_loop_step false (.error (.rangeMismatch n)) = .advance n true ∧
    upload_loop_step false (.error .sessionExpired) =
      .finished (.error "upload session expired; please retry") false := by
  have hsched : (List.range' (0 + 1) (MAX_RETRY - 0)).map
      (fun i => RETRY_BASE_DELAY_MS * 2 ^ i) = [800, 1600, 3200, 6400] := by
    decide
  refine ⟨?_, ?_, ?_, ?_, rfl, rfl⟩
  · have h := upload_chunk_go_sleeps oracle cancel start end_ total
      (MAX_RETRY + 1) 0 ""
    rw [hsched] at h
    exact h
  · intro htr
    obtain ⟨hfatal, hsleep, hatt⟩ := upload_chunk_go_transient oracle cancel
      start end_ total htr hc (MAX_RETRY + 1) 0 "" (by omega)
    rw [hsched] at hsleep
    exact ⟨hfatal, hsleep, hatt⟩
  · intro h416
    simp only [upload_chunk_with_retry, upload_chunk_go, hc 0,
      Bool.false_eq_true, if_false, h416]
  · intro h404
    simp only [upload_chunk_with_retry, upload_chunk_go, hc 0,
      Bool.false_eq_true, if_false, h404]

/-- Witness for C7: a run against a permanently failing network performs
the full back-off schedule and ends in a fatal error after five
attempts. -/
theorem chunk_retry_behavior_witness :
    (∃ msg, (upload_chunk_with_retry (fun _ => .network "boom")
        (fun _ => false) 0 9 10).result = .error (.fatal msg)) ∧
    (upload_chunk_with_retry (fun _ => .network "boom")
        (fun _ => false) 0 9 10).sleeps_ms = [800, 1600, 3200, 6400] ∧
    (upload_chunk_with_retry (fun _ => .network "boom")
        (fun _ => false) 0 9 10).attempts_used = MAX_RETRY + 1 :=
  (chunk_retry_behavior (fun _ => .network "boom") (fun _ => false) 0 9 10 0
    none (fun _ => rfl)).2.1 (fun _ => rfl)

end SkyDriveX
